import Mathlib

/-!
Verification development for the notelink schema-inference and validation
engine (Go).  The Go sources in `openapi.go`, `validation.go` and the
schema/example generator file are shallowly embedded: `reflect.Type` values
are modelled by the inductive `GoType` (finite type trees, which covers every
non-self-referential Go type), decoded JSON bodies (`map[string]interface{}`
trees produced by `encoding/json`) by the inductive `Json` with numbers as
rationals (Go decodes every JSON number to a `float64`), and Go maps keyed by
strings by association lists with overwrite-on-insert (`setKey`).
-/

namespace Notelink

/-! ## String helpers (models of the Go `strings` functions used) -/

/-- Model of `strings.ToLower(name[:1]) + name[1:]` as used by
`getJSONFieldName` for ASCII Go identifiers (first character lowered). -/
def lowerFirst (s : String) : String :=
  match s.data with
  | [] => s
  | c :: rest => String.mk (c.toLower :: rest)

/-- Model of `strings.ToLower` for the ASCII identifiers and type names it
is applied to (character-wise lowering). -/
def strToLower (s : String) : String :=
  String.mk (s.data.map Char.toLower)

/-- The characters of `tag` before the first comma: `strings.Split(tag, ",")[0]`. -/
def takeUntilComma : List Char → List Char
  | [] => []
  | c :: rest => if c = ',' then [] else c :: takeUntilComma rest

/-- Model of `strings.Split(tag, ",")[0]` for a non-empty tag. -/
def tagHead (tag : String) : String :=
  String.mk (takeUntilComma tag.data)

/-- Whether `needle` is a prefix of `hay`. -/
def listPrefixOf : List Char → List Char → Bool
  | [], _ => true
  | _ :: _, [] => false
  | a :: as, b :: bs => a = b && listPrefixOf as bs

/-- Whether `needle` occurs inside `hay` (at any position). -/
def containsAux (needle : List Char) : List Char → Bool
  | [] => listPrefixOf needle []
  | c :: rest => listPrefixOf needle (c :: rest) || containsAux needle rest

/-- Model of `strings.Contains(s, sub)`. -/
def strContains (s sub : String) : Bool :=
  containsAux sub.data s.data

/-! ## Decoded JSON values

`encoding/json` decodes into `map[string]interface{}` trees whose leaves are
`string`, `float64`, `bool` and `nil`; arrays become `[]interface{}` and
objects `map[string]interface{}`.  JSON numbers are modelled as rationals. -/

inductive Json where
  | null
  | str (s : String)
  | num (q : Rat)
  | bool (b : Bool)
  | arr (elems : List Json)
  | obj (fields : List (String × Json))
deriving Repr

/-- Whether a decoded value is JSON null (a Go `nil` interface value). -/
def Json.isNull : Json → Bool
  | .null => true
  | _ => false

/-- The field map of a decoded JSON object (empty for non-objects);
models unmarshalling an object into `map[string]interface{}`. -/
def Json.objFields : Json → List (String × Json)
  | .obj fs => fs
  | _ => []

/-! ## Go map model: association lists with overwrite-on-insert -/

/-- Go map assignment `m[k] = v`: replaces the binding of `k` if present,
otherwise appends it. -/
def setKey {α : Type} : List (String × α) → String → α → List (String × α)
  | [], k, v => [(k, v)]
  | (k', v') :: rest, k, v =>
    if k' = k then (k, v) :: rest else (k', v') :: setKey rest k v

/-- Go map lookup `m[k]`. -/
def getKey {α : Type} : List (String × α) → String → Option α
  | [], _ => none
  | (k', v') :: rest, k => if k' = k then some v' else getKey rest k

/-- The key list of an association list. -/
def keys {α : Type} (l : List (String × α)) : List String :=
  l.map Prod.fst

/-! ## Go types

`reflect.Type` values are modelled as finite trees.  Integer kinds keep their
declared width because `goTypeToJSONSchema` distinguishes 64-bit widths.
`timeT` models the special-cased `time.Time` (a named struct whose fields are
all unexported); `mapT` models `map[string]T` fields (the `reflect.Map`
kind).  A struct with `name = ""` is an anonymous struct. -/

inductive IntW where
  | i | i8 | i16 | i32 | i64
deriving DecidableEq, Repr

/-- The JSON-Schema `format` of an integer width: `int64` for 64-bit,
`int32` otherwise (`goTypeToJSONSchema`). -/
def IntW.format : IntW → String
  | .i64 => "int64"
  | _ => "int32"

mutual
inductive GoType where
  | str
  | intT (w : IntW)
  | uintT (w : IntW)
  | f32
  | f64
  | boolT
  | ptr (elem : GoType)
  | slice (elem : GoType)
  | structT (name : String) (fields : List GoField)
  | timeT
  | mapT (value : GoType)

inductive GoField where
  | mk (name : String) (jsonTag : String) (ty : GoType) (exported : Bool)
end

/-- The declared Go identifier of a field (`reflect.StructField.Name`). -/
def GoField.name : GoField → String
  | .mk n _ _ _ => n

/-- The `json:"..."` tag of a field, `""` when absent (`field.Tag.Get("json")`). -/
def GoField.jsonTag : GoField → String
  | .mk _ t _ _ => t

/-- The declared type of a field (`reflect.StructField.Type`). -/
def GoField.ty : GoField → GoType
  | .mk _ _ t _ => t

/-- Whether the field is exported (`field.IsExported()`). -/
def GoField.exported : GoField → Bool
  | .mk _ _ _ e => e

/-- Whether `t.Kind() == reflect.Ptr`. -/
def GoType.isPtr : GoType → Bool
  | .ptr _ => true
  | _ => false

/-! ## getJSONFieldName (example generator file) -/

/-- Model of `getJSONFieldName`: the wire name of a struct field.  With no
json tag the declared identifier with its first letter lowered; otherwise the
portion of the tag before the first comma (which is `""` for a tag such as
`",omitempty"`). -/
def getJSONFieldName (f : GoField) : String :=
  if f.jsonTag = "" then lowerFirst f.name
  else tagHead f.jsonTag

/-! ## Example generation heuristics (`generate*Example`)

Each helper receives the already-lowercased declared field name and picks a
literal by substring matching, first match wins, exactly as in the source. -/

/-- Model of `generateStringExample`. -/
def generateStringExample (fieldName : String) : String :=
  if strContains fieldName "email" then "user@example.com"
  else if strContains fieldName "password" then "securePassword123"
  else if strContains fieldName "username" || strContains fieldName "user_name" then "john_doe"
  else if strContains fieldName "firstname" || strContains fieldName "first_name" then "John"
  else if strContains fieldName "lastname" || strContains fieldName "last_name" then "Doe"
  else if strContains fieldName "name" then "John Doe"
  else if strContains fieldName "phone" then "+1-555-0123"
  else if strContains fieldName "address" then "123 Main Street, City, Country"
  else if strContains fieldName "url" || strContains fieldName "link" then "https://example.com"
  else if strContains fieldName "id" then "12345"
  else if strContains fieldName "token" then "eyJhbGciOiJIUzI1NiIsInR5cCI6IkpXVCJ9..."
  else if strContains fieldName "description" then "This is a sample description"
  else if strContains fieldName "title" then "Sample Title"
  else if strContains fieldName "status" then "active"
  else if strContains fieldName "type" then "default"
  else "example_value"

/-- Model of `generateIntExample` (Go return type `int`). -/
def generateIntExample (fieldName : String) : Int :=
  if strContains fieldName "age" then 25
  else if strContains fieldName "count" || strContains fieldName "total" then 10
  else if strContains fieldName "id" then 12345
  else if strContains fieldName "port" then 8080
  else if strContains fieldName "year" then 2024
  else if strContains fieldName "month" then 6
  else if strContains fieldName "day" then 15
  else 1

/-- Model of `generateUintExample` (Go return type `uint`). -/
def generateUintExample (fieldName : String) : Nat :=
  let intVal := generateIntExample fieldName
  if intVal < 0 then 0 else intVal.toNat

/-- Model of `generateFloatExample` (Go return type `float64`, modelled as a
rational; each source literal is exactly the printed decimal). -/
def generateFloatExample (fieldName : String) : Rat :=
  if strContains fieldName "price" || strContains fieldName "cost" then 99.99
  else if strContains fieldName "rate" then 0.15
  else if strContains fieldName "percentage" then 75.5
  else if strContains fieldName "latitude" then 40.7128
  else if strContains fieldName "longitude" then -74.0060
  else if strContains fieldName "weight" then 70.5
  else if strContains fieldName "height" then 175.0
  else 1.0

/-- Model of `generateBoolExample`. -/
def generateBoolExample (fieldName : String) : Bool :=
  if strContains fieldName "active" || strContains fieldName "enabled" then true
  else if strContains fieldName "deleted" || strContains fieldName "disabled" then false
  else if strContains fieldName "verified" || strContains fieldName "confirmed" then true
  else false

/-! ## Example generation (`generateJSONFromType` / `generateExampleValue`)

The `now` parameter stands for `time.Now().Format(time.RFC3339)`, the only
clock-dependent output.  `generateJSONTemplate` marshals the produced tree to
JSON text and the caller unmarshals it back; on the values produced here that
round trip is the identity (ints and uints become JSON numbers, `nil` becomes
JSON null), so the composition is modelled as the tree itself. -/

mutual
/-- Model of `generateExampleValue`; `time.Time` is special-cased to the
formatted current time before the generic struct case, and the struct case
(which in Go calls back into `generateJSONFromType`, whose struct branch
builds the field map) is written with that one step inlined so that the
recursion is structural. -/
def generateExampleValue (now : String) (t : GoType) (fieldName : String) : Json :=
  match t with
  | .ptr u => generateExampleValue now u fieldName
  | .slice u => .arr [generateExampleValue now u fieldName]
  | .timeT => .str now
  | .structT _ fields => .obj (genStructFields now fields [])
  | .str => .str (generateStringExample (strToLower fieldName))
  | .intT _ => .num ((generateIntExample (strToLower fieldName) : Int) : Rat)
  | .uintT _ => .num ((generateUintExample (strToLower fieldName) : Nat) : Rat)
  | .f32 => .num (generateFloatExample (strToLower fieldName))
  | .f64 => .num (generateFloatExample (strToLower fieldName))
  | .boolT => .bool (generateBoolExample (strToLower fieldName))
  | .mapT _ => .null

/-- The field loop of `generateJSONFromType` on a struct: skips unexported
fields and wire name `-`, otherwise assigns
`result[fieldName] = generateExampleValue(field.Type, field.Name)`. -/
def genStructFields (now : String) : List GoField → List (String × Json) → List (String × Json)
  | [], acc => acc
  | .mk nm tag fty ex :: rest, acc =>
    if ex then
      let fieldName := getJSONFieldName (.mk nm tag fty ex)
      if fieldName = "-" then genStructFields now rest acc
      else genStructFields now rest
        (setKey acc fieldName (generateExampleValue now fty nm))
    else genStructFields now rest acc
end

/-- Model of `generateJSONFromType`.  `time.Time` takes the struct branch
here: it ranges over the (all unexported) fields of `time.Time`, producing
an empty object.  Non-struct kinds defer to
`generateExampleValue(t, "")`. -/
def generateJSONFromType (now : String) : GoType → Json
  | .ptr t => generateJSONFromType now t
  | .slice t => .arr [generateJSONFromType now t]
  | .structT _ fields => .obj (genStructFields now fields [])
  | .timeT => .obj []
  | t => generateExampleValue now t ""

/-! ## Validation (`validation.go`) -/

/-- Model of `ValidationError` (Go fields `Field`, `Message`, `Type`). -/
structure ValidationError where
  field : String
  message : String
  etype : String
deriving DecidableEq, Repr

/-- Model of `ValidationErrorResponse` (Go fields `ErrorMessage`, `Errors`). -/
structure ValidationErrorResponse where
  errorMessage : String
  errors : List ValidationError
deriving DecidableEq, Repr

/-- The one-step pointer unwrap at the top of `validateFieldType`
(`if expectedType.Kind() == reflect.Ptr { expectedType = expectedType.Elem() }`). -/
def derefOnce : GoType → GoType
  | .ptr u => u
  | u => u

/-- Model of `validateFieldType`: one pointer indirection is stripped from
the expected type, a `nil` (JSON null) value is accepted, and the decoded
value's dynamic kind is checked against the expected Go kind.  `time.Time`
has kind `reflect.Struct`, so it falls into the struct case; a double
pointer strips to kind `reflect.Ptr`, which no case of the Go switch
matches. -/
def validateFieldType (value : Json) (expectedType : GoType) (fieldName : String) :
    Option ValidationError :=
  match value with
  | .null => none
  | v =>
    match derefOnce expectedType with
    | .str =>
      match v with
      | .str _ => none
      | _ => some ⟨fieldName, "Field '" ++ fieldName ++ "' must be a string", "type_error"⟩
    | .intT _ =>
      match v with
      | .num q =>
        if q.den = 1 then none
        else some ⟨fieldName, "Field '" ++ fieldName ++ "' must be an integer", "type_error"⟩
      | _ => some ⟨fieldName, "Field '" ++ fieldName ++ "' must be a number", "type_error"⟩
    | .uintT _ =>
      match v with
      | .num q =>
        if q < 0 ∨ q.den ≠ 1 then
          some ⟨fieldName, "Field '" ++ fieldName ++ "' must be a non-negative integer",
            "type_error"⟩
        else none
      | _ => some ⟨fieldName, "Field '" ++ fieldName ++ "' must be a number", "type_error"⟩
    | .f32 | .f64 =>
      match v with
      | .num _ => none
      | _ => some ⟨fieldName, "Field '" ++ fieldName ++ "' must be a number", "type_error"⟩
    | .boolT =>
      match v with
      | .bool _ => none
      | _ => some ⟨fieldName, "Field '" ++ fieldName ++ "' must be a boolean", "type_error"⟩
    | .slice _ =>
      match v with
      | .arr _ => none
      | _ => some ⟨fieldName, "Field '" ++ fieldName ++ "' must be an array", "type_error"⟩
    | .mapT _ =>
      match v with
      | .obj _ => none
      | _ => some ⟨fieldName, "Field '" ++ fieldName ++ "' must be an object", "type_error"⟩
    | .structT _ _ =>
      match v with
      | .obj _ => none
      | _ => some ⟨fieldName, "Field '" ++ fieldName ++ "' must be an object", "type_error"⟩
    | .timeT =>
      match v with
      | .obj _ => none
      | _ => some ⟨fieldName, "Field '" ++ fieldName ++ "' must be an object", "type_error"⟩
    | .ptr _ => none

/-- The `isRequired` condition as computed by both `structToJSONSchema` and
`validateStruct`: no `omitempty` substring in the json tag and not a
pointer-typed field. -/
def isRequiredF (f : GoField) : Bool :=
  !(strContains f.jsonTag "omitempty") && !f.ty.isPtr

/-- The `required`-kind error `validateStruct` emits for a missing field. -/
def requiredError (n : String) : ValidationError :=
  ⟨n, "Required field '" ++ n ++ "' is missing", "required"⟩

/-- The body of the `validateStruct` field loop for one field: skips
unexported fields and wire name `-`, emits a `required` error for a required
field that is absent or JSON null, and otherwise type-checks a present
non-null value.  The Go loop appends the (at most one) error this produces. -/
def fieldErrors (data : List (String × Json)) (f : GoField) : List ValidationError :=
  if f.exported then
    if getJSONFieldName f = "-" then []
    else
      match getKey data (getJSONFieldName f) with
      | none =>
        if isRequiredF f then [requiredError (getJSONFieldName f)] else []
      | some v =>
        if v.isNull then
          if isRequiredF f then [requiredError (getJSONFieldName f)] else []
        else
          match validateFieldType v f.ty (getJSONFieldName f) with
          | some e => [e]
          | none => []
  else []

/-- The `validateStruct` field loop: errors accumulate across fields in
declaration order. -/
def validateFields (data : List (String × Json)) : List GoField → List ValidationError
  | [] => []
  | f :: rest => fieldErrors data f ++ validateFields data rest

/-- Model of `validateStruct`: a non-struct schema type yields no errors.
(`time.Time` has kind struct in Go but all its fields are unexported, so it
also yields no errors.) -/
def validateStruct (data : List (String × Json)) (schemaType : GoType) : List ValidationError :=
  match schemaType with
  | .structT _ fields => validateFields data fields
  | _ => []

/-- Model of `c.Bind().Body(&body)` for `var body map[string]interface{}`
with a JSON request: the raw body either fails to parse as JSON at all
(`.error`) or is a decoded JSON value, and `encoding/json` unmarshals that
value into the map only when it is an object (JSON `null` leaves the map
`nil`, i.e. empty); any other JSON value is a decode error. -/
def bindBody : Except String Json → Except String (List (String × Json))
  | .error e => .error e
  | .ok (.obj fs) => .ok fs
  | .ok .null => .ok []
  | .ok _ => .error "cannot unmarshal value into map[string]interface \x7b\x7d"

/-- Model of `ValidateRequestBody`: `none` models a `nil` Go error.  A `nil`
schema skips validation; a body that does not decode into the map yields a
`parse_error` response; a top-level pointer is stripped; a top-level slice
schema skips structural validation entirely. -/
def ValidateRequestBody (raw : Except String Json) (schema : Option GoType) :
    Option ValidationErrorResponse :=
  match schema with
  | none => none
  | some sch =>
    match bindBody raw with
    | .error msg => some ⟨"Invalid JSON body", [⟨"body", msg, "parse_error"⟩]⟩
    | .ok body =>
      let schemaType := match sch with
        | .ptr u => u
        | u => u
      match schemaType with
      | .slice _ => none
      | t =>
        let errors := validateStruct body t
        if errors.isEmpty then none
        else some ⟨"Request body validation failed", errors⟩

/-! ## Parameter validation (`ValidateParameters`, `validateParameterType`)

The `strconv` parsers are modelled on their documented decimal syntax; the
parsed values are discarded by `ValidateParameters`, only success or failure
is observable.  Error texts are abbreviated stand-ins for the `strconv`
error strings, which only appear inside the formatted message. -/

/-- Model of `Parameter` (`types.go`): `inLoc` is the Go field `In`. -/
structure Parameter where
  name : String
  inLoc : String
  ty : String
  description : String
  required : Bool
deriving DecidableEq, Repr

/-- Whether every character is an ASCII digit. -/
def digitsOnly : List Char → Bool
  | [] => true
  | c :: r => c.isDigit && digitsOnly r

/-- Numeric value of a digit string. -/
def digitsVal : List Char → Nat → Nat
  | [], acc => acc
  | c :: r, acc => digitsVal r (acc * 10 + (c.toNat - 48))

/-- Model of `strconv.Atoi`: an optional sign followed by at least one
decimal digit (the `int` range check is not modelled; no caller observes
the parsed value). -/
def goAtoi (s : String) : Except String Int :=
  match s.data with
  | [] => .error "invalid syntax"
  | '+' :: r => if r ≠ [] && digitsOnly r then .ok (digitsVal r 0) else .error "invalid syntax"
  | '-' :: r => if r ≠ [] && digitsOnly r then .ok (-(digitsVal r 0 : Int)) else .error "invalid syntax"
  | l => if digitsOnly l then .ok (digitsVal l 0) else .error "invalid syntax"

/-- Decimal float body: `digits [. digits]` or `. digits`, optionally
followed by a decimal exponent. -/
def floatBody (l : List Char) : Bool :=
  let mantissa := l.takeWhile (fun c => c ≠ 'e' ∧ c ≠ 'E')
  let expPart := l.drop mantissa.length
  let intPart := mantissa.takeWhile (fun c => c ≠ '.')
  let fracTail := mantissa.drop intPart.length
  let fracOk := match fracTail with
    | [] => intPart ≠ []
    | _ :: frac => digitsOnly frac && (intPart ≠ [] ∨ frac ≠ [])
  let expOk := match expPart with
    | [] => true
    | _ :: [] => false
    | _ :: '+' :: d => d ≠ [] && digitsOnly d
    | _ :: '-' :: d => d ≠ [] && digitsOnly d
    | _ :: d => digitsOnly d
  digitsOnly intPart && fracOk && expOk

/-- Model of `strconv.ParseFloat(s, 64)` restricted to its decimal syntax
(and the `inf`/`infinity`/`nan` spellings, whose parsed value no caller
observes; the parsed rational is not reconstructed because only success is
ever used). -/
def goParseFloat (s : String) : Except String Unit :=
  let lower := strToLower s
  if lower = "inf" || lower = "+inf" || lower = "-inf" ||
     lower = "infinity" || lower = "+infinity" || lower = "-infinity" ||
     lower = "nan" then .ok ()
  else
    let body := match s.data with
      | '+' :: r => r
      | '-' :: r => r
      | l => l
    if body ≠ [] && floatBody body then .ok () else .error "invalid syntax"

/-- Model of `strconv.ParseBool`: exactly the Go boolean spellings. -/
def goParseBool (s : String) : Except String Bool :=
  if s = "1" || s = "t" || s = "T" || s = "TRUE" || s = "true" || s = "True" then .ok true
  else if s = "0" || s = "f" || s = "F" || s = "FALSE" || s = "false" || s = "False" then
    .ok false
  else .error "invalid syntax"

/-- The converted value of `validateParameterType` (Go returns
`interface{}`; no caller uses the value). -/
inductive ParamValue where
  | str (s : String)
  | num (u : Unit)
  | int (n : Int)
  | bool (b : Bool)
deriving Repr

/-- Model of `validateParameterType`: type names are lowercased and matched;
an unrecognized declared type passes the raw string through successfully. -/
def validateParameterType (value : String) (paramType : String) : Except String ParamValue :=
  match strToLower paramType with
  | "string" => .ok (.str value)
  | "number" | "float" | "double" =>
    match goParseFloat value with
    | .ok u => .ok (.num u)
    | .error e => .error e
  | "integer" | "int" =>
    match goAtoi value with
    | .ok n => .ok (.int n)
    | .error e => .error e
  | "boolean" | "bool" =>
    match goParseBool value with
    | .ok b => .ok (.bool b)
    | .error e => .error e
  | _ => .ok (.str value)

/-- Whether `validateParameterType` recognizes the declared type name. -/
def paramTypeKnown (paramType : String) : Bool :=
  match strToLower paramType with
  | "string" | "number" | "float" | "double" | "integer" | "int" | "boolean" | "bool" => true
  | _ => false

/-- Model of `getParameterValue`: the request is abstracted as `env`, a map
from parameter location (`"path"`, `"query"`, `"header"`) and name to the
raw string value, empty when absent (the fiber accessors return `""` for a
missing parameter, and the function reports `exists` as `value != ""`).  An
unrecognized location yields `("", false)`. -/
def getParameterValue (env : String → String → String) (p : Parameter) : String × Bool :=
  match p.inLoc with
  | "path" => ((env "path" p.name), env "path" p.name ≠ "")
  | "query" => ((env "query" p.name), env "query" p.name ≠ "")
  | "header" => ((env "header" p.name), env "header" p.name ≠ "")
  | _ => ("", false)

/-- The body of the `ValidateParameters` loop for one parameter: a required
absent-or-empty parameter yields a `required` error, an optional
absent-or-empty parameter is skipped, and otherwise the value is checked
against the declared type. -/
def paramErrors (env : String → String → String) (p : Parameter) : List ValidationError :=
  if p.required && (!(getParameterValue env p).2 || (getParameterValue env p).1 = "") then
    [⟨p.name, "Required parameter '" ++ p.name ++ "' is missing", "required"⟩]
  else if !(getParameterValue env p).2 || (getParameterValue env p).1 = "" then []
  else
    match validateParameterType (getParameterValue env p).1 p.ty with
    | .error e =>
      [⟨p.name, "Parameter '" ++ p.name ++ "' must be of type " ++ p.ty ++ ": " ++ e,
        "type_error"⟩]
    | .ok _ => []

/-- The `ValidateParameters` loop: per-parameter errors accumulate in order. -/
def validateParamsErrors (env : String → String → String) : List Parameter → List ValidationError
  | [] => []
  | p :: rest => paramErrors env p ++ validateParamsErrors env rest

/-- Model of `ValidateParameters`: `none` models a `nil` Go error. -/
def ValidateParameters (env : String → String → String) (params : List Parameter) :
    Option ValidationErrorResponse :=
  let errors := validateParamsErrors env params
  if errors.isEmpty then none
  else some ⟨"Parameter validation failed", errors⟩

/-! ## JSON Schema emission (`openapi.go`)

`JSONSchema` keeps exactly the fields of the Go struct that the embedded
functions ever set: `Type`, `Format`, `Title`, `Ref`, `Required`,
`Nullable`, `Minimum`, `Properties`, `Items`.  Absent strings are `""`, an
absent `Minimum` is `none` (the only value ever set is `0`), `Properties`
is a Go map (association list), and the Go `nil`-vs-empty distinction on
`Required` is not observable here (membership is what the claims use). -/

inductive JSONSchema where
  | mk (typeS format title ref : String) (required : List String) (nullable : Bool)
      (minimum : Option Rat) (properties : List (String × JSONSchema))
      (items : Option JSONSchema)

/-- The `Type` field of a schema node. -/
def JSONSchema.typeS : JSONSchema → String
  | .mk t _ _ _ _ _ _ _ _ => t

/-- The `Format` field of a schema node. -/
def JSONSchema.format : JSONSchema → String
  | .mk _ f _ _ _ _ _ _ _ => f

/-- The `Title` field of a schema node. -/
def JSONSchema.title : JSONSchema → String
  | .mk _ _ ti _ _ _ _ _ _ => ti

/-- The `$ref` field of a schema node. -/
def JSONSchema.ref : JSONSchema → String
  | .mk _ _ _ r _ _ _ _ _ => r

/-- The `Required` field of a schema node. -/
def JSONSchema.requiredList : JSONSchema → List String
  | .mk _ _ _ _ req _ _ _ _ => req

/-- The `Nullable` field of a schema node. -/
def JSONSchema.nullable : JSONSchema → Bool
  | .mk _ _ _ _ _ nb _ _ _ => nb

/-- The `Minimum` field of a schema node. -/
def JSONSchema.minimum : JSONSchema → Option Rat
  | .mk _ _ _ _ _ _ m _ _ => m

/-- The `Properties` field of a schema node. -/
def JSONSchema.properties : JSONSchema → List (String × JSONSchema)
  | .mk _ _ _ _ _ _ _ props _ => props

/-- The `Items` field of a schema node. -/
def JSONSchema.items : JSONSchema → Option JSONSchema
  | .mk _ _ _ _ _ _ _ _ it => it

/-- Sets `schema.Nullable = true` (the pointer case of `fieldToJSONSchema`). -/
def JSONSchema.withNullable : JSONSchema → JSONSchema
  | .mk t f ti r req _ m props it => .mk t f ti r req true m props it

/-- A schema with only `Type` (and possibly `Format`) set. -/
def primSchema (t fmt : String) : JSONSchema :=
  .mk t fmt "" "" [] false none [] none

/-- Model of `goTypeToJSONSchema`: primitive kind mapping; unsigned integer
kinds add `minimum: 0`; unknown kinds (such as maps) degrade to the empty
schema. -/
def goTypeToJSONSchema : GoType → JSONSchema
  | .str => primSchema "string" ""
  | .intT w => primSchema "integer" w.format
  | .uintT w => .mk "integer" w.format "" "" [] false (some 0) [] none
  | .f32 => primSchema "number" "float"
  | .f64 => primSchema "number" "double"
  | .boolT => primSchema "boolean" ""
  | _ => .mk "" "" "" "" [] false none [] none

mutual
/-- Model of `fieldToJSONSchema`: pointers mark the element schema nullable,
slices wrap in an array schema, `time.Time` maps to a date-time string,
named structs become `$ref` nodes, anonymous structs are inlined (the call
to `structToJSONSchema(t, "")` is written with the object-schema assembly
inlined so that the recursion is structural), and other kinds defer to
`goTypeToJSONSchema`. -/
def fieldToJSONSchema : GoType → JSONSchema
  | .ptr t => (fieldToJSONSchema t).withNullable
  | .slice t => .mk "array" "" "" "" [] false none [] (some (fieldToJSONSchema t))
  | .timeT => primSchema "string" "date-time"
  | .structT n fields =>
    if n = "" then
      .mk "object" "" "" "" (structProps fields [] []).2 false none
        (structProps fields [] []).1 none
    else .mk "" "" "" ("#/components/schemas/" ++ n) [] false none [] none
  | .str => goTypeToJSONSchema .str
  | .intT w => goTypeToJSONSchema (.intT w)
  | .uintT w => goTypeToJSONSchema (.uintT w)
  | .f32 => goTypeToJSONSchema .f32
  | .f64 => goTypeToJSONSchema .f64
  | .boolT => goTypeToJSONSchema .boolT
  | .mapT v => goTypeToJSONSchema (.mapT v)

/-- The `structToJSONSchema` field loop: skips unexported fields and wire
name `-`, records each field's schema under its wire name, and appends the
wire name to the required list when the field is neither `omitempty`-tagged
nor a pointer. -/
def structProps : List GoField → List (String × JSONSchema) → List String →
    (List (String × JSONSchema)) × List String
  | [], props, req => (props, req)
  | .mk nm tag fty ex :: rest, props, req =>
    if ex then
      let fieldName := getJSONFieldName (.mk nm tag fty ex)
      if fieldName = "-" then structProps rest props req
      else
        structProps rest (setKey props fieldName (fieldToJSONSchema fty))
          (if !(strContains tag "omitempty") && !fty.isPtr then req ++ [fieldName] else req)
    else structProps rest props req
end

/-- The object schema that `structToJSONSchema` assembles from the
accumulated properties map and required list (`Type: "object"`,
`Title: name`). -/
def structFieldsToSchema (fields : List GoField) (name : String) : JSONSchema :=
  .mk "object" "" name "" (structProps fields [] []).2 false none
    (structProps fields [] []).1 none

/-- Model of `structToJSONSchema` (the `componentSchemas` argument is never
read by it, so it is dropped); only ever called on struct types. -/
def structToJSONSchema (t : GoType) (name : String) : JSONSchema :=
  match t with
  | .structT _ fields => structFieldsToSchema fields name
  | _ => structFieldsToSchema [] name

/-! ## Self-referential types (`collectComponentSchemas` and the example
generator on cyclic `reflect.Type` graphs)

A Go `reflect.Type` graph may be cyclic (`type Node struct { Next *Node }`);
the tree model `GoType` cannot represent that, so for the recursion analysis
struct types are referenced *by name* (`GoTypeN.namedStruct`) and resolved
through an environment mapping type names to field lists, exactly as the
reflect graph does.  Each embedded function takes a fuel bound on call
depth; `none` means the bound was exhausted, so a function whose result is
`none` for *every* fuel recurses without bound (the Go original overflows
the stack). -/

inductive GoTypeN where
  | primN (exampleVal : Json)
  | ptrN (elem : GoTypeN)
  | sliceN (elem : GoTypeN)
  | namedStruct (name : String)
  | timeN
deriving Repr

/-- A struct field in the named-reference model. -/
structure GoFieldN where
  name : String
  jsonTag : String
  ty : GoTypeN
  exported : Bool
deriving Repr

/-- A type environment: the field lists of the named struct types
(`reflect` resolves a name to its fields; an unknown name resolves to no
fields). -/
def fieldsOf (env : List (String × List GoFieldN)) (n : String) : List GoFieldN :=
  (getKey env n).getD []

/-- The unwrap prefix of `collectComponentSchemas`: strip a pointer, then a
slice, then a pointer again. -/
def unwrapN : GoTypeN → GoTypeN
  | .ptrN t =>
    match t with
    | .sliceN u =>
      match u with
      | .ptrN w => w
      | w => w
    | u => u
  | .sliceN u =>
    match u with
    | .ptrN w => w
    | w => w
  | t => t

mutual
/-- Fuel-indexed model of `collectComponentSchemas`.  The schemas map is
tracked by its key set (the stored schema values never influence the walk:
the guard only asks whether a *name* is already present).  Note the guard is
checked against the map as it is when the call starts, and a type's own name
is inserted only *after* the recursion over its fields. -/
def collectFuel (env : List (String × List GoFieldN)) :
    Nat → GoTypeN → List String → Option (List String)
  | 0, _, _ => none
  | Nat.succ fuel, t, schemas =>
    match unwrapN t with
    | .namedStruct n =>
      if n ∈ schemas then some schemas
      else
        match collectFieldsFuel env fuel (fieldsOf env n) schemas with
        | none => none
        | some s2 => some (if n ∈ s2 then s2 else s2 ++ [n])
    | _ => some schemas
termination_by fuel _ _ => (fuel, 0)

/-- The field loop of `collectComponentSchemas`: every field (exported or
not — the Go loop has no `IsExported` check) whose unwrapped type is a
named struct other than `time.Time` is recursed into, threading the schemas
map. -/
def collectFieldsFuel (env : List (String × List GoFieldN)) :
    Nat → List GoFieldN → List String → Option (List String)
  | _, [], schemas => some schemas
  | fuel, f :: rest, schemas =>
    match unwrapN f.ty with
    | .namedStruct _ =>
      match collectFuel env fuel f.ty schemas with
      | none => none
      | some s2 => collectFieldsFuel env fuel rest s2
    | _ => collectFieldsFuel env fuel rest schemas
termination_by fuel fields _ => (fuel, fields.length + 1)
end

mutual
/-- Fuel-indexed model of `generateJSONFromType` over the named-reference
type model. -/
def genFromTypeFuel (env : List (String × List GoFieldN)) (now : String) :
    Nat → GoTypeN → Option Json
  | 0, _ => none
  | Nat.succ fuel, t =>
    match t with
    | .ptrN u => genFromTypeFuel env now fuel u
    | .sliceN u =>
      match genFromTypeFuel env now fuel u with
      | none => none
      | some j => some (.arr [j])
    | .namedStruct n =>
      match genFieldsFuel env now fuel (fieldsOf env n) [] with
      | none => none
      | some fs => some (.obj fs)
    | .timeN => some (.obj [])
    | .primN j => some j
termination_by fuel _ => (fuel, 0)

/-- Fuel-indexed model of `generateExampleValue` over the named-reference
type model (the struct case re-enters the object builder). -/
def genExampleFuel (env : List (String × List GoFieldN)) (now : String) :
    Nat → GoTypeN → Option Json
  | 0, _ => none
  | Nat.succ fuel, t =>
    match t with
    | .ptrN u => genExampleFuel env now fuel u
    | .sliceN u =>
      match genExampleFuel env now fuel u with
      | none => none
      | some j => some (.arr [j])
    | .timeN => some (.str now)
    | .namedStruct n =>
      match genFieldsFuel env now fuel (fieldsOf env n) [] with
      | none => none
      | some fs => some (.obj fs)
    | .primN j => some j
termination_by fuel _ => (fuel, 0)

/-- The struct-field loop of the fuel-indexed example generator. -/
def genFieldsFuel (env : List (String × List GoFieldN)) (now : String) :
    Nat → List GoFieldN → List (String × Json) → Option (List (String × Json))
  | _, [], acc => some acc
  | fuel, f :: rest, acc =>
    if f.exported then
      let fieldName := if f.jsonTag = "" then lowerFirst f.name else tagHead f.jsonTag
      if fieldName = "-" then genFieldsFuel env now fuel rest acc
      else
        match genExampleFuel env now fuel f.ty with
        | none => none
        | some j => genFieldsFuel env now fuel rest (setKey acc fieldName j)
    else genFieldsFuel env now fuel rest acc
termination_by fuel fields _ => (fuel, fields.length + 1)
end

/-- The canonical self-referential type: `type Node struct { Next *Node }`. -/
def nodeEnv : List (String × List GoFieldN) :=
  [("Node", [⟨"Next", "next", .ptrN (.namedStruct "Node"), true⟩])]

/-! ## Derived field predicates used by the round-trip theorem -/

/-- The wire names of the fields that none of the three artifact generators
skip (exported, wire name not `-`), in declaration order. -/
def relevantNames (fields : List GoField) : List String :=
  fields.filterMap fun f =>
    if f.exported = true ∧ getJSONFieldName f ≠ "-" then some (getJSONFieldName f) else none

/-- Whether the generated example for this type is JSON null (the
`generateExampleValue` default case, reached through any pointers). -/
def exampleNull : GoType → Bool
  | .ptr t => exampleNull t
  | .mapT _ => true
  | _ => false

/-- Whether `validateFieldType` accepts this field type's own generated
example: it does except when the type after one pointer indirection is
`time.Time` (whose example is a string but whose kind is struct). -/
def checkableOK : GoType → Bool
  | .timeT => false
  | .ptr .timeT => false
  | _ => true

/-- The per-field condition of the round-trip law: the example for the
field's type must pass `validateFieldType`, and a required field must not
generate a null example. -/
def fieldOK (f : GoField) : Bool :=
  checkableOK f.ty && (!(isRequiredF f) || !(exampleNull f.ty))

/-! ## Concrete sample inputs used by the claim witnesses -/

/-- A sample required integer field (`Age int `json:"age"``). -/
def sampleAgeField : GoField := .mk "Age" "age" (.intT .i) true

/-- A sample struct type exercising nested structs, slices, pointers and
all primitive kinds (none of them `time.Time` or map-typed). -/
def sampleFields : List GoField :=
  [.mk "Name" "" .str true,
   sampleAgeField,
   .mk "Tags" "tags" (.slice .str) true,
   .mk "Profile" "profile,omitempty"
     (.ptr (.structT "Profile" [.mk "Bio" "bio" .str true])) true,
   .mk "Score" "score" .f64 true,
   .mk "Active" "is_active" .boolT true,
   .mk "Count" "count" (.uintT .i32) true]

/-- A decoded payload that omits the required `age` key. -/
def sampleDataMissingAge : List (String × Json) := [("name", .str "John")]

/-- A request environment with every parameter empty except `present`. -/
def c8env : String → String → String :=
  fun _ nm => if nm = "present" then "20" else ""

/-! ## Association-list lemmas -/

theorem getKey_setKey_self {α : Type} (l : List (String × α)) (k : String) (v : α) :
    getKey (setKey l k v) k = some v := by
  induction l with
  | nil => simp [setKey, getKey]
  | cons hd tl ih =>
    obtain ⟨k', v'⟩ := hd
    by_cases h : k' = k
    · simp [setKey, getKey, h]
    · simp [setKey, getKey, h, ih]

theorem getKey_setKey_ne {α : Type} (l : List (String × α)) (k k' : String) (v : α)
    (h : k' ≠ k) : getKey (setKey l k v) k' = getKey l k' := by
  induction l with
  | nil => simp [setKey, getKey, Ne.symm h]
  | cons hd tl ih =>
    obtain ⟨k0, v0⟩ := hd
    by_cases h0 : k0 = k
    · subst h0
      simp [setKey, getKey, Ne.symm h]
    · simp only [setKey, if_neg h0, getKey]
      by_cases h1 : k0 = k'
      · simp [h1]
      · simp [h1, ih]

theorem keys_setKey {α : Type} (l : List (String × α)) (k : String) (v : α) :
    keys (setKey l k v) = if k ∈ keys l then keys l else keys l ++ [k] := by
  induction l with
  | nil => simp [setKey, keys]
  | cons hd tl ih =>
    obtain ⟨k0, v0⟩ := hd
    by_cases h0 : k0 = k
    · subst h0
      simp [setKey, keys]
    · have hne : ¬(k = k0) := fun hh => h0 hh.symm
      simp only [setKey, if_neg h0, keys, List.map_cons, List.mem_cons]
      simp only [keys] at ih
      by_cases hk : k ∈ List.map Prod.fst tl
      · simp [hk, ih, hne]
      · simp [hk, ih, hne]

/-- Two association lists with the same keys stay key-equal after inserting
the same key. -/
theorem keys_setKey_congr {α β : Type} (l₁ : List (String × α)) (l₂ : List (String × β))
    (k : String) (v₁ : α) (v₂ : β) (h : keys l₁ = keys l₂) :
    keys (setKey l₁ k v₁) = keys (setKey l₂ k v₂) := by
  rw [keys_setKey, keys_setKey, h]

/-! ## Shape lemmas for the validator loop -/

theorem validateFields_eq_flatMap (data : List (String × Json)) (fields : List GoField) :
    validateFields data fields = fields.flatMap (fieldErrors data) := by
  induction fields with
  | nil => simp [validateFields]
  | cons f rest ih => simp [validateFields, ih, List.flatMap_cons]

theorem fieldErrors_length_le (data : List (String × Json)) (f : GoField) :
    (fieldErrors data f).length ≤ 1 := by
  unfold fieldErrors
  split <;> (try split) <;> (try split) <;> (try split) <;> (try split) <;> simp

theorem validateFieldType_some (v : Json) (t : GoType) (n : String) (e : ValidationError)
    (h : validateFieldType v t n = some e) : e.field = n ∧ e.etype = "type_error" := by
  unfold validateFieldType at h
  split at h
  · exact Option.noConfusion h
  · split at h <;>
      (try split at h) <;> (try split at h) <;>
      first
      | (exact Option.noConfusion h)
      | (injection h with h2; subst h2; exact ⟨rfl, rfl⟩)

theorem fieldErrors_mem (data : List (String × Json)) (f : GoField) (e : ValidationError)
    (h : e ∈ fieldErrors data f) :
    e.field = getJSONFieldName f ∧ (e.etype = "required" ∨ e.etype = "type_error") := by
  unfold fieldErrors at h
  split at h <;> (try split at h) <;> (try split at h) <;> (try split at h) <;>
    (try split at h) <;>
    first
    | (exact absurd h (List.not_mem_nil e))
    | (simp only [List.mem_singleton] at h; subst h; exact ⟨rfl, Or.inl rfl⟩)
    | (rename_i e' he'
       simp only [List.mem_singleton] at h
       subst h
       have hsome := validateFieldType_some _ _ _ _ he'
       exact ⟨hsome.1, Or.inr hsome.2⟩)

/-! ## Generator lemmas -/

theorem derefOnce_not_ptr (u : GoType) (h : u.isPtr = false) : derefOnce u = u := by
  cases u <;> simp_all [derefOnce, GoType.isPtr]

theorem validateFieldType_congr (v : Json) (t₁ t₂ : GoType) (nm : String)
    (h : derefOnce t₁ = derefOnce t₂) :
    validateFieldType v t₁ nm = validateFieldType v t₂ nm := by
  unfold validateFieldType
  rw [h]

/-- The generated example for a type is JSON null exactly when the type
bottoms out (through pointers) in a kind the generator does not support. -/
theorem generateExampleValue_null_iff (now : String) :
    ∀ (t : GoType) (fn : String),
      generateExampleValue now t fn = .null ↔ exampleNull t = true
  | .ptr u, fn => by
    rw [show generateExampleValue now (.ptr u) fn = generateExampleValue now u fn from by
      simp [generateExampleValue]]
    rw [show exampleNull (.ptr u) = exampleNull u from by simp [exampleNull]]
    exact generateExampleValue_null_iff now u fn
  | .slice u, fn => by simp [generateExampleValue, exampleNull]
  | .str, fn => by simp [generateExampleValue, exampleNull]
  | .intT w, fn => by simp [generateExampleValue, exampleNull]
  | .uintT w, fn => by simp [generateExampleValue, exampleNull]
  | .f32, fn => by simp [generateExampleValue, exampleNull]
  | .f64, fn => by simp [generateExampleValue, exampleNull]
  | .boolT, fn => by simp [generateExampleValue, exampleNull]
  | .structT n fields, fn => by
    simp [generateExampleValue, generateJSONFromType, exampleNull]
  | .timeT, fn => by simp [generateExampleValue, exampleNull]
  | .mapT v, fn => by simp [generateExampleValue, exampleNull]

theorem natCast_rat_accepted (n : Nat) : ¬((n : Rat) < 0 ∨ (n : Rat).den ≠ 1) := by
  push_neg
  refine ⟨?_, Rat.den_natCast n⟩
  exact_mod_cast Nat.zero_le n

/-- A non-pointer, non-`time.Time` field type accepts its own generated
example. -/
theorem validateFieldType_generated_base (now fn nm : String) :
    ∀ (t : GoType), t.isPtr = false → t ≠ .timeT →
      validateFieldType (generateExampleValue now t fn) t nm = none
  | .str, _, _ => by simp [generateExampleValue, validateFieldType, derefOnce]
  | .intT w, _, _ => by
    simp [generateExampleValue, validateFieldType, derefOnce, Rat.den_intCast]
  | .uintT w, _, _ => by
    simp only [generateExampleValue, validateFieldType, derefOnce]
    rw [if_neg (natCast_rat_accepted _)]
  | .f32, _, _ => by simp [generateExampleValue, validateFieldType, derefOnce]
  | .f64, _, _ => by simp [generateExampleValue, validateFieldType, derefOnce]
  | .boolT, _, _ => by simp [generateExampleValue, validateFieldType, derefOnce]
  | .slice u, _, _ => by simp [generateExampleValue, validateFieldType, derefOnce]
  | .structT n fields, _, _ => by
    simp [generateExampleValue, generateJSONFromType, validateFieldType, derefOnce]
  | .timeT, _, h => absurd rfl h
  | .mapT v, _, _ => by simp [generateExampleValue, validateFieldType]

/-- Any field type that satisfies `checkableOK` accepts its own generated
example (`validateFieldType` strips one pointer and the generator strips
them all, so the two agree except on `time.Time`). -/
theorem validateFieldType_generated (now fn nm : String) (t : GoType)
    (h : checkableOK t = true) :
    validateFieldType (generateExampleValue now t fn) t nm = none := by
  match t with
  | .ptr u =>
    rw [show generateExampleValue now (.ptr u) fn = generateExampleValue now u fn from by
      simp [generateExampleValue]]
    match u with
    | .ptr w =>
      cases hgen : generateExampleValue now (.ptr w) fn <;>
        simp [validateFieldType, derefOnce]
    | .str =>
      rw [validateFieldType_congr _ (.ptr .str) .str nm rfl]
      exact validateFieldType_generated_base now fn nm .str rfl (by simp)
    | .intT w =>
      rw [validateFieldType_congr _ (.ptr (.intT w)) (.intT w) nm rfl]
      exact validateFieldType_generated_base now fn nm (.intT w) rfl (by simp)
    | .uintT w =>
      rw [validateFieldType_congr _ (.ptr (.uintT w)) (.uintT w) nm rfl]
      exact validateFieldType_generated_base now fn nm (.uintT w) rfl (by simp)
    | .f32 =>
      rw [validateFieldType_congr _ (.ptr .f32) .f32 nm rfl]
      exact validateFieldType_generated_base now fn nm .f32 rfl (by simp)
    | .f64 =>
      rw [validateFieldType_congr _ (.ptr .f64) .f64 nm rfl]
      exact validateFieldType_generated_base now fn nm .f64 rfl (by simp)
    | .boolT =>
      rw [validateFieldType_congr _ (.ptr .boolT) .boolT nm rfl]
      exact validateFieldType_generated_base now fn nm .boolT rfl (by simp)
    | .slice w =>
      rw [validateFieldType_congr _ (.ptr (.slice w)) (.slice w) nm rfl]
      exact validateFieldType_generated_base now fn nm (.slice w) rfl (by simp)
    | .structT n fields =>
      rw [validateFieldType_congr _ (.ptr (.structT n fields)) (.structT n fields) nm rfl]
      exact validateFieldType_generated_base now fn nm (.structT n fields) rfl (by simp)
    | .timeT => exact absurd h (by simp [checkableOK])
    | .mapT w =>
      rw [validateFieldType_congr _ (.ptr (.mapT w)) (.mapT w) nm rfl]
      exact validateFieldType_generated_base now fn nm (.mapT w) rfl (by simp)
  | .str => exact validateFieldType_generated_base now fn nm .str rfl (by simp)
  | .intT w => exact validateFieldType_generated_base now fn nm (.intT w) rfl (by simp)
  | .uintT w => exact validateFieldType_generated_base now fn nm (.uintT w) rfl (by simp)
  | .f32 => exact validateFieldType_generated_base now fn nm .f32 rfl (by simp)
  | .f64 => exact validateFieldType_generated_base now fn nm .f64 rfl (by simp)
  | .boolT => exact validateFieldType_generated_base now fn nm .boolT rfl (by simp)
  | .slice u => exact validateFieldType_generated_base now fn nm (.slice u) rfl (by simp)
  | .structT n fields =>
    exact validateFieldType_generated_base now fn nm (.structT n fields) rfl (by simp)
  | .timeT => exact absurd h (by simp [checkableOK])
  | .mapT v => exact validateFieldType_generated_base now fn nm (.mapT v) rfl (by simp)


/-! ## Lookup lemmas for the generated example object -/

theorem Json.isNull_iff (v : Json) : v.isNull = true ↔ v = .null := by
  cases v <;> simp [Json.isNull]

theorem relevantNames_cons (f : GoField) (rest : List GoField) :
    relevantNames (f :: rest) =
      if f.exported = true ∧ getJSONFieldName f ≠ "-" then
        getJSONFieldName f :: relevantNames rest
      else relevantNames rest := by
  by_cases h : f.exported = true ∧ getJSONFieldName f ≠ "-"
  · simp [relevantNames, List.filterMap_cons, h]
  · simp [relevantNames, List.filterMap_cons, h]

/-- A key that is not the wire name of any relevant field is untouched by
the example-object builder. -/
theorem genStructFields_getKey_notin (now : String) :
    ∀ (fields : List GoField) (acc : List (String × Json)) (k : String),
      k ∉ relevantNames fields →
      getKey (genStructFields now fields acc) k = getKey acc k := by
  intro fields
  induction fields with
  | nil => intro acc k _; simp [genStructFields]
  | cons f rest ih =>
    intro acc k hk
    obtain ⟨nm, tag, fty, ex⟩ := f
    rw [relevantNames_cons] at hk
    by_cases hcond : (GoField.mk nm tag fty ex).exported = true ∧
        getJSONFieldName (GoField.mk nm tag fty ex) ≠ "-"
    · rw [if_pos hcond] at hk
      simp only [List.mem_cons, not_or] at hk
      have hex : ex = true := by simpa [GoField.exported] using hcond.1
      subst hex
      rw [show genStructFields now (GoField.mk nm tag fty true :: rest) acc
          = genStructFields now rest
              (setKey acc (getJSONFieldName (GoField.mk nm tag fty true))
                (generateExampleValue now fty nm)) from by
        simp [genStructFields, hcond.2]]
      rw [ih _ k hk.2, getKey_setKey_ne _ _ _ _ hk.1]
    · rw [if_neg hcond] at hk
      cases ex with
      | false =>
        rw [show genStructFields now (GoField.mk nm tag fty false :: rest) acc
            = genStructFields now rest acc from by simp [genStructFields]]
        exact ih _ k hk
      | true =>
        by_cases hname : getJSONFieldName (GoField.mk nm tag fty true) = "-"
        · rw [show genStructFields now (GoField.mk nm tag fty true :: rest) acc
              = genStructFields now rest acc from by simp [genStructFields, hname]]
          exact ih _ k hk
        · exact absurd ⟨rfl, hname⟩ hcond

/-- With pairwise-distinct relevant wire names, the generated example object
maps each relevant field's wire name to that field's generated example. -/
theorem genStructFields_getKey_mem (now : String) :
    ∀ (fields : List GoField) (acc : List (String × Json)),
      (relevantNames fields).Nodup →
      ∀ f ∈ fields, f.exported = true → getJSONFieldName f ≠ "-" →
      getKey (genStructFields now fields acc) (getJSONFieldName f) =
        some (generateExampleValue now f.ty f.name) := by
  intro fields
  induction fields with
  | nil => intro acc _ f hf; exact absurd hf (List.not_mem_nil f)
  | cons f0 rest ih =>
    intro acc hnodup f hf hex hname
    obtain ⟨nm, tag, fty, ex⟩ := f0
    rw [relevantNames_cons] at hnodup
    by_cases hcond : (GoField.mk nm tag fty ex).exported = true ∧
        getJSONFieldName (GoField.mk nm tag fty ex) ≠ "-"
    · rw [if_pos hcond] at hnodup
      have hex0 : ex = true := by simpa [GoField.exported] using hcond.1
      subst hex0
      rw [show genStructFields now (GoField.mk nm tag fty true :: rest) acc
          = genStructFields now rest
              (setKey acc (getJSONFieldName (GoField.mk nm tag fty true))
                (generateExampleValue now fty nm)) from by
        simp [genStructFields, hcond.2]]
      rcases List.mem_cons.mp hf with hf0 | hfr
      · subst hf0
        rw [genStructFields_getKey_notin now rest _ _ (List.nodup_cons.mp hnodup).1,
          getKey_setKey_self]
        rfl
      · exact ih _ (List.nodup_cons.mp hnodup).2 f hfr hex hname
    · rw [if_neg hcond] at hnodup
      have hfr : f ∈ rest := by
        rcases List.mem_cons.mp hf with hf0 | hfr
        · refine absurd ⟨?_, ?_⟩ hcond
          · rw [hf0] at hex; exact hex
          · rw [hf0] at hname; exact hname
        · exact hfr
      cases ex with
      | false =>
        rw [show genStructFields now (GoField.mk nm tag fty false :: rest) acc
            = genStructFields now rest acc from by simp [genStructFields]]
        exact ih _ hnodup f hfr hex hname
      | true =>
        by_cases hname0 : getJSONFieldName (GoField.mk nm tag fty true) = "-"
        · rw [show genStructFields now (GoField.mk nm tag fty true :: rest) acc
              = genStructFields now rest acc from by simp [genStructFields, hname0]]
          exact ih _ hnodup f hfr hex hname
        · exact absurd ⟨rfl, hname0⟩ hcond

/-- A field skipped by all three generators contributes no error. -/
theorem fieldErrors_skip (data : List (String × Json)) (f : GoField)
    (h : f.exported = false ∨ getJSONFieldName f = "-") : fieldErrors data f = [] := by
  rcases h with h | h
  · simp [fieldErrors, h]
  · by_cases hex : f.exported = true
    · simp [fieldErrors, hex, h]
    · simp [fieldErrors, Bool.eq_false_iff.mpr (fun hh => hex hh)]

/-- A relevant field satisfying `fieldOK` produces no error against its own
generated example. -/
theorem fieldErrors_generated (data : List (String × Json)) (now : String) (f : GoField)
    (hok : fieldOK f = true)
    (hget : getKey data (getJSONFieldName f) = some (generateExampleValue now f.ty f.name)) :
    fieldErrors data f = [] := by
  by_cases hex : f.exported = true
  · by_cases hname : getJSONFieldName f = "-"
    · simp [fieldErrors, hex, hname]
    · simp only [fieldErrors, hex, if_true, hname, if_neg, ite_false, hget]
      by_cases hnull : (generateExampleValue now f.ty f.name).isNull = true
      · have hnull' : exampleNull f.ty = true :=
          (generateExampleValue_null_iff now f.ty f.name).mp ((Json.isNull_iff _).mp hnull)
        have hreq : isRequiredF f = false := by
          rcases Bool.eq_false_or_eq_true (isRequiredF f) with h1 | h1
          · exfalso
            have := hok
            simp only [fieldOK, Bool.and_eq_true, Bool.or_eq_true] at this
            rcases this.2 with h2 | h2
            · rw [h1] at h2; simp at h2
            · rw [hnull'] at h2; simp at h2
          · exact h1
        simp [hnull, hreq]
      · have hcheck : checkableOK f.ty = true := by
          simp only [fieldOK, Bool.and_eq_true] at hok
          exact hok.1
        simp [hnull, validateFieldType_generated now f.name (getJSONFieldName f) f.ty hcheck]
  · exact fieldErrors_skip data f (Or.inl (by simpa using hex))

theorem validateFields_nil (data : List (String × Json)) (fields : List GoField)
    (h : ∀ f ∈ fields, fieldErrors data f = []) : validateFields data fields = [] := by
  induction fields with
  | nil => simp [validateFields]
  | cons f rest ih =>
    simp only [validateFields, h f (List.mem_cons_self f rest), List.nil_append]
    exact ih fun g hg => h g (List.mem_cons_of_mem f hg)

/-- Claim C1 (corrected, amended form): for every struct type whose
relevant (exported, non-skipped) fields have pairwise-distinct wire names,
no `time.Time` at a validator-checked position (the field type or directly
behind a single pointer), and no field of an unsupported (map) kind in a
required position, validating the generated example against the type with
the Structural Validator returns an empty ValidationResult — including
nested structs, slices, pointer fields and primitive fields.  (The original
claim quantified over all struct types including `time.Time` fields; the
counterexample theorem shows that fails.) -/
theorem c1_generated_example_validates_clean (now nm : String) (fields : List GoField)
    (hnodup : (relevantNames fields).Nodup)
    (hok : ∀ f ∈ fields, f.exported = true → getJSONFieldName f ≠ "-" → fieldOK f = true) :
    validateStruct ((generateJSONFromType now (.structT nm fields)).objFields)
      (.structT nm fields) = [] := by
  have hgen : (generateJSONFromType now (.structT nm fields)).objFields
      = genStructFields now fields [] := by
    simp [generateJSONFromType, Json.objFields]
  show validateFields ((generateJSONFromType now (.structT nm fields)).objFields) fields = []
  rw [hgen]
  apply validateFields_nil
  intro f hf
  by_cases hex : f.exported = true
  · by_cases hname : getJSONFieldName f = "-"
    · exact fieldErrors_skip _ f (Or.inr hname)
    · exact fieldErrors_generated _ now f (hok f hf hex hname)
        (genStructFields_getKey_mem now fields [] hnodup f hf hex hname)
  · exact fieldErrors_skip _ f (Or.inl (by simpa using hex))

/-! ## Further helper lemmas for the claim theorems -/

/-- The function `fieldErrors` reads the payload only at the field's own wire name. -/
theorem fieldErrors_congr (data₁ data₂ : List (String × Json)) (f : GoField)
    (h : getKey data₁ (getJSONFieldName f) = getKey data₂ (getJSONFieldName f)) :
    fieldErrors data₁ f = fieldErrors data₂ f := by
  unfold fieldErrors
  rw [h]

/-- A required relevant field that is absent or JSON null produces exactly
the `required` error. -/
theorem fieldErrors_required_missing (data : List (String × Json)) (f : GoField)
    (hex : f.exported = true) (hname : getJSONFieldName f ≠ "-")
    (hreq : isRequiredF f = true)
    (habs : getKey data (getJSONFieldName f) = none ∨
      getKey data (getJSONFieldName f) = some .null) :
    fieldErrors data f = [requiredError (getJSONFieldName f)] := by
  rcases habs with habs | habs <;>
    simp [fieldErrors, hex, hname, hreq, habs, Json.isNull]

/-- A non-required field never produces a `required`-kind error. -/
theorem fieldErrors_not_required (data : List (String × Json)) (f : GoField)
    (hreq : isRequiredF f = false) :
    ∀ e ∈ fieldErrors data f, e.etype ≠ "required" := by
  intro e he
  unfold fieldErrors at he
  split at he <;> (try split at he) <;> (try split at he) <;> (try split at he) <;>
    (try split at he) <;>
    first
    | (exact absurd he (List.not_mem_nil e))
    | (rename_i hr; rw [hreq] at hr; exact absurd hr (by simp))
    | (rename_i e' he'
       simp only [List.mem_singleton] at he
       subst he
       have hsome := validateFieldType_some _ _ _ _ he'
       rw [hsome.2]
       simp)

/-- Any error produced by `fieldErrors` comes from a relevant field. -/
theorem fieldErrors_relevant (data : List (String × Json)) (f : GoField) (e : ValidationError)
    (h : e ∈ fieldErrors data f) :
    f.exported = true ∧ getJSONFieldName f ≠ "-" := by
  by_cases hex : f.exported = true
  · by_cases hname : getJSONFieldName f = "-"
    · rw [fieldErrors_skip data f (Or.inr hname)] at h
      exact absurd h (List.not_mem_nil e)
    · exact ⟨hex, hname⟩
  · rw [fieldErrors_skip data f (Or.inl (by simpa using hex))] at h
    exact absurd h (List.not_mem_nil e)

/-- The wire name of a relevant declared field is in `relevantNames`. -/
theorem mem_relevantNames (fields : List GoField) (f : GoField) (hf : f ∈ fields)
    (hex : f.exported = true) (hname : getJSONFieldName f ≠ "-") :
    getJSONFieldName f ∈ relevantNames fields := by
  simp only [relevantNames, List.mem_filterMap]
  exact ⟨f, hf, by rw [if_pos ⟨hex, hname⟩]⟩

/-- Every error of `validateStruct` carries the wire name of some declared
relevant field. -/
theorem validateStruct_field_names (data : List (String × Json)) (nm : String)
    (fields : List GoField) (e : ValidationError)
    (h : e ∈ validateStruct data (.structT nm fields)) : e.field ∈ relevantNames fields := by
  have h' : e ∈ fields.flatMap (fieldErrors data) := by
    rw [← validateFields_eq_flatMap]
    exact h
  obtain ⟨f, hf, he⟩ := List.mem_flatMap.mp h'
  have hrel := fieldErrors_relevant data f e he
  rw [(fieldErrors_mem data f e he).1]
  exact mem_relevantNames fields f hf hrel.1 hrel.2

/-- The accumulated required list of the `structToJSONSchema` loop. -/
theorem structProps_snd (fields : List GoField) :
    ∀ (props : List (String × JSONSchema)) (req : List String),
      (structProps fields props req).2 = req ++ fields.filterMap (fun f =>
        if f.exported = true ∧ getJSONFieldName f ≠ "-" ∧ isRequiredF f = true
        then some (getJSONFieldName f) else none) := by
  induction fields with
  | nil => intro props req; simp [structProps]
  | cons f rest ih =>
    intro props req
    obtain ⟨nm, tag, fty, ex⟩ := f
    cases ex with
    | false =>
      rw [show structProps (GoField.mk nm tag fty false :: rest) props req
          = structProps rest props req from by simp [structProps]]
      rw [ih]
      simp [List.filterMap_cons, GoField.exported]
    | true =>
      by_cases hname : getJSONFieldName (GoField.mk nm tag fty true) = "-"
      · rw [show structProps (GoField.mk nm tag fty true :: rest) props req
            = structProps rest props req from by simp [structProps, hname]]
        rw [ih]
        congr 1
        simp [hname]
      · by_cases hreq : isRequiredF (GoField.mk nm tag fty true) = true
        · have hreq' : (!(strContains tag "omitempty") && !fty.isPtr) = true := hreq
          rw [show structProps (GoField.mk nm tag fty true :: rest) props req
              = structProps rest
                  (setKey props (getJSONFieldName (GoField.mk nm tag fty true))
                    (fieldToJSONSchema fty))
                  (req ++ [getJSONFieldName (GoField.mk nm tag fty true)]) from by
            simp [structProps, hname, hreq']]
          rw [ih]
          rw [show List.filterMap (fun f =>
              if f.exported = true ∧ getJSONFieldName f ≠ "-" ∧ isRequiredF f = true
              then some (getJSONFieldName f) else none)
              (GoField.mk nm tag fty true :: rest)
              = getJSONFieldName (GoField.mk nm tag fty true) :: List.filterMap _ rest from by
            rw [List.filterMap_cons]
            rw [if_pos ⟨rfl, hname, hreq⟩]]
          simp
        · have hreq' : (!(strContains tag "omitempty") && !fty.isPtr) = false := by
            simpa [isRequiredF, GoField.jsonTag, GoField.ty] using hreq
          rw [show structProps (GoField.mk nm tag fty true :: rest) props req
              = structProps rest
                  (setKey props (getJSONFieldName (GoField.mk nm tag fty true))
                    (fieldToJSONSchema fty))
                  req from by
            simp [structProps, hname, hreq']]
          rw [ih]
          congr 1
          rw [List.filterMap_cons]
          rw [if_neg (by simp [hreq])]

/-- The properties map of the schema emitter and the example object of the
generator are built by inserting the same wire names in the same order, so
their key lists coincide. -/
theorem keys_structProps_genStructFields (now : String) :
    ∀ (fields : List GoField) (acc₁ : List (String × JSONSchema))
      (acc₂ : List (String × Json)) (req : List String),
      keys acc₁ = keys acc₂ →
      keys (structProps fields acc₁ req).1 = keys (genStructFields now fields acc₂) := by
  intro fields
  induction fields with
  | nil => intro acc₁ acc₂ req h; simpa [structProps, genStructFields] using h
  | cons f rest ih =>
    intro acc₁ acc₂ req h
    obtain ⟨nm, tag, fty, ex⟩ := f
    cases ex with
    | false =>
      rw [show structProps (GoField.mk nm tag fty false :: rest) acc₁ req
          = structProps rest acc₁ req from by simp [structProps]]
      rw [show genStructFields now (GoField.mk nm tag fty false :: rest) acc₂
          = genStructFields now rest acc₂ from by simp [genStructFields]]
      exact ih acc₁ acc₂ req h
    | true =>
      by_cases hname : getJSONFieldName (GoField.mk nm tag fty true) = "-"
      · rw [show structProps (GoField.mk nm tag fty true :: rest) acc₁ req
            = structProps rest acc₁ req from by simp [structProps, hname]]
        rw [show genStructFields now (GoField.mk nm tag fty true :: rest) acc₂
            = genStructFields now rest acc₂ from by simp [genStructFields, hname]]
        exact ih acc₁ acc₂ req h
      · rw [show structProps (GoField.mk nm tag fty true :: rest) acc₁ req
            = structProps rest
                (setKey acc₁ (getJSONFieldName (GoField.mk nm tag fty true))
                  (fieldToJSONSchema fty))
                (if !(strContains tag "omitempty") && !fty.isPtr
                 then req ++ [getJSONFieldName (GoField.mk nm tag fty true)] else req) from by
          simp [structProps, hname]]
        rw [show genStructFields now (GoField.mk nm tag fty true :: rest) acc₂
            = genStructFields now rest
                (setKey acc₂ (getJSONFieldName (GoField.mk nm tag fty true))
                  (generateExampleValue now fty nm)) from by
          simp [genStructFields, hname]]
        exact ih _ _ _ (keys_setKey_congr _ _ _ _ _ h)

/-- A per-field bound of one error gives a global bound of one error per
declared field. -/
theorem flatMap_length_le (data : List (String × Json)) :
    ∀ (fields : List GoField),
      (fields.flatMap (fieldErrors data)).length ≤ fields.length := by
  intro fields
  induction fields with
  | nil => simp
  | cons f rest ih =>
    rw [List.flatMap_cons, List.length_append, List.length_cons]
    have h1 := fieldErrors_length_le data f
    omega

/-- Inserting a key that is no declared field\'s wire name does not change
the validator\'s outcome. -/
theorem validateFields_setKey_unknown (data : List (String × Json)) (k : String) (v : Json) :
    ∀ fields : List GoField, k ∉ relevantNames fields →
      validateFields (setKey data k v) fields = validateFields data fields := by
  intro fields
  induction fields with
  | nil => intro _; simp [validateFields]
  | cons f rest ih =>
    intro hk
    rw [relevantNames_cons] at hk
    by_cases hcond : f.exported = true ∧ getJSONFieldName f ≠ "-"
    · rw [if_pos hcond] at hk
      simp only [List.mem_cons, not_or] at hk
      simp only [validateFields]
      rw [ih hk.2,
        fieldErrors_congr (setKey data k v) data f (getKey_setKey_ne data k _ v (Ne.symm hk.1))]
    · rw [if_neg hcond] at hk
      have hskip : f.exported = false ∨ getJSONFieldName f = "-" := by
        rcases not_and_or.mp hcond with h | h
        · exact Or.inl (by simpa using h)
        · exact Or.inr (by simpa using h)
      simp only [validateFields]
      rw [ih hk, fieldErrors_skip _ f hskip, fieldErrors_skip _ f hskip]

/-! ## Divergence of the walkers on the self-referential `Node` type -/

theorem fieldsOf_node : fieldsOf nodeEnv "Node"
    = [⟨"Next", "next", .ptrN (.namedStruct "Node"), true⟩] := by
  simp [fieldsOf, nodeEnv, getKey]

theorem node_tagHead : tagHead "next" = "next" := by decide

/-- The walk of `collectComponentSchemas` exhausts every call-depth bound on `Node`:
the already-processed guard never fires because a type's name is added only
after the recursion over its fields. -/
theorem collectFuel_node_aux : ∀ fuel : Nat,
    collectFuel nodeEnv fuel (.ptrN (.namedStruct "Node")) [] = none ∧
    collectFuel nodeEnv fuel (.namedStruct "Node") [] = none := by
  intro fuel
  induction fuel with
  | zero => exact ⟨by simp [collectFuel], by simp [collectFuel]⟩
  | succ n ih =>
    have hfields : collectFieldsFuel nodeEnv n (fieldsOf nodeEnv "Node") [] = none := by
      rw [fieldsOf_node]
      simp [collectFieldsFuel, unwrapN, ih.1]
    constructor
    · simp [collectFuel, unwrapN, hfields]
    · simp [collectFuel, unwrapN, hfields]

/-- The example generator exhausts every call-depth bound on `Node`. -/
theorem genFuel_node_aux (now : String) : ∀ fuel : Nat,
    genExampleFuel nodeEnv now fuel (.ptrN (.namedStruct "Node")) = none ∧
    genExampleFuel nodeEnv now fuel (.namedStruct "Node") = none ∧
    genFieldsFuel nodeEnv now fuel (fieldsOf nodeEnv "Node") [] = none := by
  intro fuel
  induction fuel with
  | zero =>
    refine ⟨by simp [genExampleFuel], by simp [genExampleFuel], ?_⟩
    rw [fieldsOf_node]
    simp [genFieldsFuel, genExampleFuel, node_tagHead]
  | succ n ih =>
    have h1 : genExampleFuel nodeEnv now (n + 1) (.ptrN (.namedStruct "Node")) = none := by
      simp [genExampleFuel, ih.2.1]
    refine ⟨h1, ?_, ?_⟩
    · simp [genExampleFuel, ih.2.2]
    · rw [fieldsOf_node]
      simp [genFieldsFuel, node_tagHead, h1]

/-! ## Parameter-validation lemmas -/

theorem validateParamsErrors_eq_flatMap (env : String → String → String) :
    ∀ params : List Parameter,
      validateParamsErrors env params = params.flatMap (paramErrors env) := by
  intro params
  induction params with
  | nil => simp [validateParamsErrors]
  | cons p rest ih => simp [validateParamsErrors, ih, List.flatMap_cons]

theorem paramErrors_required (env : String → String → String) (p : Parameter)
    (hreq : p.required = true) (hval : (getParameterValue env p).1 = "") :
    paramErrors env p
      = [⟨p.name, "Required parameter '" ++ p.name ++ "' is missing", "required"⟩] := by
  unfold paramErrors
  rw [if_pos]
  rw [hreq, hval]
  simp

theorem paramErrors_optional_empty (env : String → String → String) (p : Parameter)
    (hreq : p.required = false) (hval : (getParameterValue env p).1 = "") :
    paramErrors env p = [] := by
  unfold paramErrors
  rw [if_neg (by rw [hreq]; simp), if_pos (by rw [hval]; simp)]

theorem getParameterValue_snd (env : String → String → String) (p : Parameter)
    (h : (getParameterValue env p).1 ≠ "") : (getParameterValue env p).2 = true := by
  unfold getParameterValue at *
  split at h <;> simp_all

theorem validateParameterType_unknown (v ty : String) (h : paramTypeKnown ty = false) :
    validateParameterType v ty = .ok (.str v) := by
  unfold paramTypeKnown at h
  unfold validateParameterType
  split at h <;> simp_all

theorem paramErrors_unknown (env : String → String → String) (p : Parameter)
    (hty : paramTypeKnown p.ty = false) (hval : (getParameterValue env p).1 ≠ "") :
    paramErrors env p = [] := by
  have h2 := getParameterValue_snd env p hval
  unfold paramErrors
  rw [if_neg (by rw [h2]; simp [hval]), if_neg (by rw [h2]; simp [hval])]
  rw [validateParameterType_unknown _ _ hty]

/-! ## Claim theorems -/

/-- Claim C1 counterexample: the round-trip law fails as universally
stated.  A struct with a `time.Time` field generates a timestamp string
that the validator rejects demanding an object; two fields sharing a wire
name generate one value that fails the first field's type check; a required
map-kind field generates JSON null and is reported missing. -/
theorem c1_roundtrip_counterexample :
    validateStruct ((generateJSONFromType "2024-01-01T00:00:00Z"
        (.structT "Event" [.mk "CreatedAt" "created_at" .timeT true])).objFields)
      (.structT "Event" [.mk "CreatedAt" "created_at" .timeT true])
      = [⟨"created_at", "Field 'created_at' must be an object", "type_error"⟩]
    ∧ validateStruct ((generateJSONFromType "2024-01-01T00:00:00Z"
        (.structT "Dup" [.mk "A" "x" .str true, .mk "B" "x" (.intT .i) true])).objFields)
      (.structT "Dup" [.mk "A" "x" .str true, .mk "B" "x" (.intT .i) true]) ≠ []
    ∧ validateStruct ((generateJSONFromType "2024-01-01T00:00:00Z"
        (.structT "M" [.mk "Data" "data" (.mapT .str) true])).objFields)
      (.structT "M" [.mk "Data" "data" (.mapT .str) true])
      = [⟨"data", "Required field 'data' is missing", "required"⟩] :=
  ⟨by decide, by decide, by decide⟩

/-- Witness for claim C1: a concrete struct with nested struct, slice,
pointer, string, int, uint, float and bool fields satisfies the amended
hypotheses, and its generated example validates clean. -/
theorem c1_generated_example_validates_clean_witness :
    ((relevantNames sampleFields).Nodup
      ∧ (∀ f ∈ sampleFields, f.exported = true → getJSONFieldName f ≠ "-" →
          fieldOK f = true))
    ∧ validateStruct ((generateJSONFromType "2024-01-01T00:00:00Z"
        (.structT "User" sampleFields)).objFields) (.structT "User" sampleFields) = [] :=
  ⟨⟨by decide, by decide⟩,
    c1_generated_example_validates_clean "2024-01-01T00:00:00Z" "User" sampleFields
      (by decide) (by decide)⟩

/-- Claim C2 (the claim is the spec's intent; the code lacks the guard):
on the self-referential type `Node struct { Next *Node }`, both the schema
collection walk and the example generation walk exhaust every call-depth
bound — the second encounter of `Node` is not treated as a reference,
because `collectComponentSchemas` inserts a name into the schemas map only
after recursing over its fields, and `generateJSONFromType` has no guard at
all, so neither walk terminates. -/
theorem c2_walks_diverge_on_self_referential (now : String) (fuel : Nat) :
    collectFuel nodeEnv fuel (.namedStruct "Node") [] = none
    ∧ genFromTypeFuel nodeEnv now fuel (.namedStruct "Node") = none := by
  constructor
  · exact (collectFuel_node_aux fuel).2
  · cases fuel with
    | zero => simp [genFromTypeFuel]
    | succ n => simp [genFromTypeFuel, (genFuel_node_aux now n).2.2]

/-- Claim C3 (confirmed): a field is required exactly when it is not
pointer-typed and its json tag has no `omitempty` marker (`isRequiredF`);
the Schema Emitter's `required` array lists exactly the wire names of the
relevant required fields in declaration order, and the Structural Validator
emits a `required`-kind error for exactly such fields when their key is
missing or JSON null (it never emits one for a non-required field). -/
theorem c3_requiredness_agreement (nm title : String) (fields : List GoField)
    (data : List (String × Json)) :
    ((structToJSONSchema (.structT nm fields) title).requiredList
      = fields.filterMap (fun f =>
          if f.exported = true ∧ getJSONFieldName f ≠ "-" ∧ isRequiredF f = true
          then some (getJSONFieldName f) else none))
    ∧ (∀ f ∈ fields, f.exported = true → getJSONFieldName f ≠ "-" → isRequiredF f = true →
        (getKey data (getJSONFieldName f) = none ∨
          getKey data (getJSONFieldName f) = some .null) →
        requiredError (getJSONFieldName f) ∈ validateStruct data (.structT nm fields))
    ∧ (∀ f ∈ fields, isRequiredF f = false →
        ∀ e ∈ fieldErrors data f, e.etype ≠ "required") := by
  refine ⟨?_, ?_, ?_⟩
  · show (structProps fields [] []).2 = _
    rw [structProps_snd fields [] []]
    simp
  · intro f hf hex hname hreq habs
    have herr := fieldErrors_required_missing data f hex hname hreq habs
    show requiredError _ ∈ validateFields data fields
    rw [validateFields_eq_flatMap]
    exact List.mem_flatMap.mpr ⟨f, hf, by rw [herr]; exact List.mem_singleton_self _⟩
  · intro f _ hreq e he
    exact fieldErrors_not_required data f hreq e he

/-- Witness for claim C3: on the sample struct, `age` is in the emitted
required list, and validating a payload without `age` yields the matching
`required` error. -/
theorem c3_requiredness_agreement_witness :
    ("age" ∈ (structToJSONSchema (.structT "User" sampleFields) "User").requiredList)
    ∧ requiredError "age" ∈ validateStruct sampleDataMissingAge
        (.structT "User" sampleFields) := by
  have h := c3_requiredness_agreement "User" "User" sampleFields sampleDataMissingAge
  constructor
  · rw [h.1]; decide
  · exact h.2.1 sampleAgeField
      (List.mem_cons_of_mem _ (List.mem_cons_self _ _))
      (by decide) (by decide) (by decide) (Or.inl rfl)

/-- Claim C4 (corrected, amended form): the Schema Emitter maps `time.Time`
to `{type: "string", format: "date-time"}` and the Example Generator yields
the formatted current time as a string; but the Structural Validator has no
`time.Time` special case — the field falls into the generic struct branch,
which demands a JSON object and therefore rejects the very string the other
two artifacts agree on.  (The original claim said the validator does not
require an object for such a field.) -/
theorem c4_time_treatment :
    fieldToJSONSchema .timeT = .mk "string" "date-time" "" "" [] false none [] none
    ∧ (∀ now fn, generateExampleValue now .timeT fn = .str now)
    ∧ (∀ s nmf, validateFieldType (.str s) .timeT nmf
        = some ⟨nmf, "Field '" ++ nmf ++ "' must be an object", "type_error"⟩) :=
  ⟨rfl, fun _ _ => rfl, fun _ _ => rfl⟩

/-- Claim C4 counterexample: the Structural Validator rejects an RFC3339
string for a `time.Time` field, demanding a JSON object. -/
theorem c4_validator_rejects_time_string :
    validateFieldType (.str "2024-01-01T00:00:00Z") .timeT "created_at"
      = some ⟨"created_at", "Field 'created_at' must be an object", "type_error"⟩
    ∧ validateFieldType (.str "2024-01-01T00:00:00Z") .timeT "created_at" ≠ none :=
  ⟨rfl, by decide⟩

/-- Claim C5 (corrected, amended form): for a top-level slice schema no
structural validation is performed — any body that decodes into the
`map[string]interface{}` bind target (a JSON object, or JSON null) yields
success, and a body that fails to decode yields only the `parse_error`
response.  (The original claim said every body that parses as JSON
succeeds; the counterexample shows a JSON array body is rejected by the
bind step.) -/
theorem c5_array_schema_skips_validation :
    (∀ (fs : List (String × Json)) (elem : GoType),
      ValidateRequestBody (.ok (.obj fs)) (some (.slice elem)) = none)
    ∧ (∀ elem : GoType, ValidateRequestBody (.ok .null) (some (.slice elem)) = none)
    ∧ (∀ (msg : String) (elem : GoType),
        ValidateRequestBody (.error msg) (some (.slice elem))
          = some ⟨"Invalid JSON body", [⟨"body", msg, "parse_error"⟩]⟩) :=
  ⟨fun _ _ => rfl, fun _ => rfl, fun _ _ => rfl⟩

/-- Claim C5 counterexample: with an array-of-structs schema, a body that
is valid JSON but a JSON array (the natural payload for an array schema)
does not yield success — decoding it into `map[string]interface{}` fails
and `ValidateRequestBody` returns the `parse_error` response. -/
theorem c5_json_array_body_not_success :
    ValidateRequestBody (.ok (.arr [.num 1]))
      (some (.slice (.structT "User" [.mk "Name" "name" .str true]))) ≠ none
    ∧ ValidateRequestBody (.ok (.arr [.num 1]))
        (some (.slice (.structT "User" [.mk "Name" "name" .str true])))
      = some ⟨"Invalid JSON body",
          [⟨"body", "cannot unmarshal value into map[string]interface \x7b\x7d",
            "parse_error"⟩]⟩ :=
  ⟨by decide, rfl⟩

/-- Claim C6 (confirmed): a present JSON number for an unsigned-integer
field is accepted exactly when it is integral and non-negative, and the
concrete payload value `-5` yields exactly one `type_error`. -/
theorem c6_uint_field_validation :
    (∀ (q : Rat) (w : IntW) (nmf : String),
      validateFieldType (.num q) (.uintT w) nmf = none ↔ (q.den = 1 ∧ 0 ≤ q))
    ∧ validateStruct [("count", .num (-5))]
        (.structT "S" [.mk "Count" "count" (.uintT .i) true])
      = [⟨"count", "Field 'count' must be a non-negative integer", "type_error"⟩] := by
  constructor
  · intro q w nmf
    show (if q < 0 ∨ q.den ≠ 1
        then some (⟨nmf, "Field '" ++ nmf ++ "' must be a non-negative integer",
          "type_error"⟩ : ValidationError)
        else none) = none ↔ (q.den = 1 ∧ 0 ≤ q)
    by_cases hc : q < 0 ∨ q.den ≠ 1
    · rw [if_pos hc]
      constructor
      · intro h; exact absurd h (by simp)
      · intro h
        rcases hc with hc | hc
        · exact absurd hc (not_lt.mpr h.2)
        · exact absurd h.1 hc
    · rw [if_neg hc]
      push_neg at hc
      exact iff_of_true rfl ⟨hc.2, hc.1⟩
  · decide

/-- Claim C7 (corrected, amended form): with no json tag all three
components derive the wire name by lower-casing the identifier's first
letter; with a tag they all use the portion before the first comma — which
for a name-less tag such as `",omitempty"` is the empty string, not the
lowercased identifier.  All three components key fields identically: they
call the same `getJSONFieldName`, the schema properties and the generated
example have the same key list, and every validator error carries a
declared wire name. -/
theorem c7_wire_name_resolution (now nm title : String) (fields : List GoField)
    (data : List (String × Json)) :
    (∀ f : GoField, f.jsonTag = "" → getJSONFieldName f = lowerFirst f.name)
    ∧ (∀ f : GoField, f.jsonTag ≠ "" → getJSONFieldName f = tagHead f.jsonTag)
    ∧ keys (structToJSONSchema (.structT nm fields) title).properties
        = keys (generateJSONFromType now (.structT nm fields)).objFields
    ∧ (∀ e ∈ validateStruct data (.structT nm fields), e.field ∈ relevantNames fields) := by
  refine ⟨?_, ?_, ?_, ?_⟩
  · intro f h; simp [getJSONFieldName, h]
  · intro f h; simp [getJSONFieldName, h]
  · show keys (structProps fields [] []).1 = keys (genStructFields now fields [])
    exact keys_structProps_genStructFields now fields [] [] [] rfl
  · intro e he
    exact validateStruct_field_names data nm fields e he

/-- Claim C7 counterexample: for the tag `",omitempty"` (modifier suffix,
no name portion) the wire name is the empty string — it is not derived from
the declared identifier by lower-casing its first letter, as the claim
states. -/
theorem c7_tag_without_name_portion :
    getJSONFieldName (.mk "Email" ",omitempty" .str true) = ""
    ∧ getJSONFieldName (.mk "Email" ",omitempty" .str true) ≠ lowerFirst "Email" :=
  ⟨by decide, by decide⟩

/-- Witness for claim C7: concrete fields with and without explicit tags,
and the schema/example key agreement on the sample struct. -/
theorem c7_wire_name_resolution_witness :
    getJSONFieldName (.mk "UserName" "" .str true) = lowerFirst "UserName"
    ∧ getJSONFieldName (.mk "UserID" "user_id,omitempty" .str true)
        = tagHead "user_id,omitempty"
    ∧ keys (structToJSONSchema (.structT "User" sampleFields) "User").properties
        = keys (generateJSONFromType "2024-01-01T00:00:00Z"
            (.structT "User" sampleFields)).objFields := by
  obtain ⟨h1, h2, h3, _⟩ := c7_wire_name_resolution "2024-01-01T00:00:00Z" "User" "User"
    sampleFields []
  exact ⟨h1 _ rfl, h2 _ (by decide), h3⟩

/-- Claim C8 (confirmed): a required parameter that is absent or empty
yields a `required`-kind error; an optional absent-or-empty parameter is
silently skipped with no type check; an unrecognized declared type is
treated as a string, so such parameters never fail the type check for any
present value. -/
theorem c8_parameter_validation_rules (env : String → String → String) :
    (∀ (params : List Parameter) (p : Parameter), p ∈ params → p.required = true →
      (getParameterValue env p).1 = "" →
      ∃ e ∈ validateParamsErrors env params, e.field = p.name ∧ e.etype = "required")
    ∧ (∀ p : Parameter, p.required = false → (getParameterValue env p).1 = "" →
        paramErrors env p = [])
    ∧ (∀ v ty : String, paramTypeKnown ty = false →
        validateParameterType v ty = .ok (.str v))
    ∧ (∀ p : Parameter, paramTypeKnown p.ty = false → (getParameterValue env p).1 ≠ "" →
        paramErrors env p = [])
    ∧ (∀ params : List Parameter,
        (ValidateParameters env params = none ↔ validateParamsErrors env params = [])) := by
  refine ⟨?_, paramErrors_optional_empty env, validateParameterType_unknown,
    paramErrors_unknown env, ?_⟩
  · intro params p hp hreq hval
    refine ⟨⟨p.name, "Required parameter '" ++ p.name ++ "' is missing", "required"⟩,
      ?_, rfl, rfl⟩
    rw [validateParamsErrors_eq_flatMap]
    exact List.mem_flatMap.mpr ⟨p, hp, by
      rw [paramErrors_required env p hreq hval]
      exact List.mem_singleton_self _⟩
  · intro params
    show (if (validateParamsErrors env params).isEmpty
        then none
        else some (⟨"Parameter validation failed", validateParamsErrors env params⟩
          : ValidationErrorResponse)) = none ↔ validateParamsErrors env params = []
    by_cases he : validateParamsErrors env params = []
    · rw [if_pos (by simp [he])]
      simp [he]
    · rw [if_neg (by simpa using he)]
      simp [he]

/-- Witness for claim C8: with an environment where only `present` has a
value, a required empty `integer` parameter yields the `required` error, an
optional empty parameter is skipped, and the unknown type `uuid` is
accepted both in isolation and for a present parameter. -/
theorem c8_parameter_validation_rules_witness :
    ((⟨"age", "query", "integer", "", true⟩ : Parameter).required = true
      ∧ (getParameterValue c8env ⟨"age", "query", "integer", "", true⟩).1 = ""
      ∧ ∃ e ∈ validateParamsErrors c8env [⟨"age", "query", "integer", "", true⟩],
          e.field = "age" ∧ e.etype = "required")
    ∧ paramErrors c8env ⟨"opt", "query", "string", "", false⟩ = []
    ∧ validateParameterType "anything" "uuid" = .ok (.str "anything")
    ∧ paramErrors c8env ⟨"present", "query", "uuid", "", false⟩ = [] := by
  refine ⟨⟨rfl, by decide, ?_⟩, ?_, ?_, ?_⟩
  · exact (c8_parameter_validation_rules c8env).1 [⟨"age", "query", "integer", "", true⟩]
      ⟨"age", "query", "integer", "", true⟩ (List.mem_singleton_self _) rfl (by decide)
  · exact (c8_parameter_validation_rules c8env).2.1 _ rfl (by decide)
  · exact (c8_parameter_validation_rules c8env).2.2.1 "anything" "uuid" (by decide)
  · exact (c8_parameter_validation_rules c8env).2.2.2.1 ⟨"present", "query", "uuid", "", false⟩
      (by decide) (by decide)

/-- Claim C9 (confirmed): every error `validateStruct` produces carries the
wire name of some declared relevant field, and payload keys matching no
declared wire name are ignored — inserting such a key (with any value)
leaves the result unchanged. -/
theorem c9_errors_only_for_declared_fields (data : List (String × Json)) (nm : String)
    (fields : List GoField) :
    (∀ e ∈ validateStruct data (.structT nm fields), e.field ∈ relevantNames fields)
    ∧ (∀ (k : String) (v : Json), k ∉ relevantNames fields →
        validateStruct (setKey data k v) (.structT nm fields)
          = validateStruct data (.structT nm fields)) := by
  constructor
  · intro e he
    exact validateStruct_field_names data nm fields e he
  · intro k v hk
    exact validateFields_setKey_unknown data k v fields hk

/-- Witness for claim C9: the `age` required error names a declared field,
and inserting an undeclared key `extra` does not change the result. -/
theorem c9_errors_only_for_declared_fields_witness :
    (requiredError "age" ∈ validateStruct sampleDataMissingAge (.structT "User" sampleFields))
    ∧ ("age" ∈ relevantNames sampleFields)
    ∧ ("extra" ∉ relevantNames sampleFields)
    ∧ validateStruct (setKey sampleDataMissingAge "extra" (.num 7))
        (.structT "User" sampleFields)
      = validateStruct sampleDataMissingAge (.structT "User" sampleFields) := by
  refine ⟨by decide, ?_, by decide, ?_⟩
  · exact (c9_errors_only_for_declared_fields sampleDataMissingAge "User" sampleFields).1
      (requiredError "age") (by decide)
  · exact (c9_errors_only_for_declared_fields sampleDataMissingAge "User" sampleFields).2
      "extra" (.num 7) (by decide)

/-- Claim C10 (confirmed): `validateStruct` is the concatenation of
per-field contributions in declaration order, each contributing at most one
error (so a `required` error and a type error are mutually exclusive for a
field), and the total number of errors never exceeds the number of declared
fields. -/
theorem c10_at_most_one_error_per_field (data : List (String × Json)) (nm : String)
    (fields : List GoField) :
    validateStruct data (.structT nm fields) = fields.flatMap (fieldErrors data)
    ∧ (∀ f : GoField, (fieldErrors data f).length ≤ 1)
    ∧ (validateStruct data (.structT nm fields)).length ≤ fields.length := by
  refine ⟨validateFields_eq_flatMap data fields, fieldErrors_length_le data, ?_⟩
  show (validateFields data fields).length ≤ fields.length
  rw [validateFields_eq_flatMap]
  exact flatMap_length_le data fields

end Notelink

